import Mathlib

/-!
# Verification of the forgetai-backend request-gating core

A shallow embedding, in Lean 4, of the access-control and request-gating
logic of the forgetai-backend Go service, together with proofs of the
specified properties.

Modelling conventions:
* Go strings are modelled as `List Char` (Go slices strings by index; list
  `take`/`drop`/`isPrefixOf` mirror those operations exactly).
* The Redis counter behind a single rate-limit key is a `Nat` (an absent key
  counts as `0`; `INCR` creates it at `1`).
* `float32` similarity scores are modelled as `ℚ`: the code only ever
  compares scores with `>`, never does arithmetic on them, so the embedding
  is exact for every property considered here.
* Network effects (JWKS fetches, Redis reachability) are passed in as
  explicit parameters or `Except` results.
-/

namespace ForgetAI

/-- Go string, modelled as its character sequence. -/
abbrev Str := List Char

/-! ## Rate limiter (internal/services/redis.go, internal/auth middleware)

`CheckRateLimit` increments the counter under the key
`rate-limit:<user>:<endpoint>:<day>` and reports whether the limit is
exceeded.  The state of one such key is its counter value. -/

/-- The admission threshold hard-coded in `CheckRateLimit`
(`return count > 30, nil`). -/
def rateLimitThreshold : Nat := 30

/-- `CheckRateLimit` (redis.go lines 41-60) for a single
(user, endpoint, day) key, on the healthy backend path: `INCR` the counter,
then report `count > 30`.  Returns `(exceeded, new counter value)`.
The `count == 1` branch of the source only sets a TTL, which does not affect
the counter value within the window. -/
def checkRateLimit (counter : Nat) : Bool × Nat :=
  let count := counter + 1
  (decide (count > rateLimitThreshold), count)

/-- `GetRateLimitCount` (redis.go lines 63-74): `GET` on the key, `0` when
absent. -/
def getRateLimitCount (counter : Nat) : Nat := counter

/-- Outcome of `RateLimitMiddleware` for one request. -/
inductive RLOutcome where
  | proceed
  | reject (count : Nat) (limit : Nat)
  deriving Repr, DecidableEq

/-- `RateLimitMiddleware` (middleware.go lines 90-111), abstracted over the
backend call's result: on a backend error the middleware calls `c.Next()`
(fail-open, the error is not surfaced); on `exceeded` it aborts with a 429
carrying `GetRateLimitCount` and the literal limit `10`; otherwise it calls
`c.Next()`. `countAfter` is the counter value the follow-up
`GetRateLimitCount` reads. -/
def rateLimitMiddleware (checkResult : Except Str Bool) (countAfter : Nat) :
    RLOutcome :=
  match checkResult with
  | .error _ => .proceed
  | .ok exceeded =>
      if exceeded then .reject (getRateLimitCount countAfter) 10 else .proceed

/-- One healthy-backend admission step: the middleware runs
`CheckRateLimit` and, on rejection, reads the count back.  Returns the
outcome and the new counter value. -/
def rateLimitStep (counter : Nat) : RLOutcome × Nat :=
  let r := checkRateLimit counter
  (rateLimitMiddleware (.ok r.1) r.2, r.2)

/-- The counter value after `k` admission checks starting from an absent
key. -/
def counterAfterChecks (k : Nat) : Nat :=
  Nat.rec 0 (fun _ c => (checkRateLimit c).2) k

/-! ## Session store (internal/services/session.go)

The store is the `sessions` map; the mutex only serialises access and has no
sequential effect, so the embedding is the map itself. -/

/-- `models.ChatMessage`. -/
structure ChatMessage where
  role : Str
  content : Str
  deriving Repr, DecidableEq

/-- `models.ChatSession` (timestamps as Unix seconds). -/
structure ChatSession where
  messages : List ChatMessage
  createdAt : Int
  updatedAt : Int
  deriving Repr, DecidableEq

/-- The `sessions` map of `SessionService`. -/
abbrev SessionStore := Str → Option ChatSession

/-- `GetOrCreateSession` (session.go lines 27-46).  `uuid` is the fresh
random component `uuid.New().String()`; the generated identifier is
`userId + "-" + uuid`.  Returns the identifier and the updated store. -/
def getOrCreateSession (store : SessionStore) (sessionId userId uuid : Str)
    (now : Int) : Str × SessionStore :=
  let sid := if sessionId = [] then userId ++ ('-' :: uuid) else sessionId
  match store sid with
  | some _ => (sid, store)
  | none => (sid, fun k => if k = sid then some ⟨[], now, now⟩ else store k)

/-- `AddMessageToSession` (session.go lines 49-69): a no-op when the session
does not exist; otherwise append the message and, when the history exceeds
10 entries, keep only the last 10 (`session.Messages[len-10:]`); refresh the
update timestamp. -/
def addMessageToSession (store : SessionStore) (sessionId : Str)
    (role content : Str) (now : Int) : SessionStore :=
  match store sessionId with
  | none => store
  | some session =>
      let msgs := session.messages ++ [⟨role, content⟩]
      let msgs := if msgs.length > 10 then msgs.drop (msgs.length - 10)
        else msgs
      fun k =>
        if k = sessionId then some ⟨msgs, session.createdAt, now⟩ else store k

/-- A sequence of `AddMessageToSession` calls on one session; each entry is
`(role, content, timestamp)`. -/
def addMessages (store : SessionStore) (sessionId : Str)
    (ops : List (Str × Str × Int)) : SessionStore :=
  ops.foldl
    (fun st op => addMessageToSession st sessionId op.1 op.2.1 op.2.2) store

/-- The messages a list of append operations contributes. -/
def msgsOf (ops : List (Str × Str × Int)) : List ChatMessage :=
  ops.map (fun op => ⟨op.1, op.2.1⟩)

/-- The last `n` entries of a list, in order (what
`session.Messages[len-10:]` keeps). -/
def lastN (n : Nat) (xs : List ChatMessage) : List ChatMessage :=
  xs.rtake n

/-- Result of the `GetSession` handler. -/
inductive GetSessionResult where
  | forbidden
  | notFound
  | ok (session : ChatSession)
  deriving Repr, DecidableEq

/-- `GetSession` handler (handlers.go lines 307-336): reject with 403 unless
the session identifier starts with the authenticated user id followed by
`-` (`strings.HasPrefix(sessionId, userId+"-")`); then 404 when the session
does not exist, else return it. -/
def getSessionHandler (store : SessionStore) (userId sessionId : Str) :
    GetSessionResult :=
  if (userId ++ ['-']).isPrefixOf sessionId then
    match store sessionId with
    | none => .notFound
    | some session => .ok session
  else .forbidden

/-! ## Retrieval ranker (handlers.go, `QueryData` lines 186-222) -/

/-- A Pinecone match as consumed by the ranking pass. -/
structure RMatch where
  text : Str
  score : ℚ
  deriving Repr, DecidableEq

/-- The deduplication key: the first 50 characters of the match's text
(`key := text; if len(key) > 50 { key = key[:50] }`). -/
def dedupKey (t : Str) : Str := if t.length > 50 then t.take 50 else t

/-- Lookup in the association list modelling the `uniqueResults` Go map. -/
def alookup (k : Str) : List (Str × ℚ) → Option ℚ
  | [] => none
  | p :: rest => if p.1 = k then some p.2 else alookup k rest

/-- One iteration of the deduplication loop: keep, per key, only the highest
score (`if existingScore, exists := uniqueResults[key]; !exists ||
match.Score > existingScore { uniqueResults[key] = match.Score }`).  The Go
map is modelled as an association list. -/
def insertMatch (acc : List (Str × ℚ)) (m : RMatch) : List (Str × ℚ) :=
  let key := dedupKey m.text
  match alookup key acc with
  | none => acc ++ [(key, m.score)]
  | some existingScore =>
      if m.score > existingScore then
        acc.map (fun p => if p.1 = key then (key, m.score) else p)
      else acc

/-- The deduplication fold over a list of matches. -/
def dedupPass (ms : List RMatch) : List (Str × ℚ) :=
  ms.foldl insertMatch []

/-- `uniqueResults` as built by `QueryData`: the loop runs over
`res.Matches[:Min(10, len(res.Matches))]`. -/
def uniqueResults (ms : List RMatch) : List (Str × ℚ) :=
  dedupPass (ms.take 10)

/-- One step of a running maximum over the scores of the matches whose
dedup key is `k`. -/
def bestStep (k : Str) (a : Option ℚ) (m : RMatch) : Option ℚ :=
  if dedupKey m.text = k then
    match a with
    | none => some m.score
    | some s => some (if m.score > s then m.score else s)
  else a

/-- Running maximum over the scores of the matches with dedup key `k`,
started from `a`. -/
def bestScoreAux (k : Str) (a : Option ℚ) (ms : List RMatch) : Option ℚ :=
  ms.foldl (bestStep k) a

/-- The highest score among the processed matches whose dedup key is `k`
(`none` when there is no such match). -/
def bestScore (k : Str) (ms : List RMatch) : Option ℚ :=
  bestScoreAux k none ms

/-- The scores of the processed matches whose dedup key is `k`. -/
def scoresFor (k : Str) (ms : List RMatch) : List ℚ :=
  (ms.filter (fun m => dedupKey m.text = k)).map (fun m => m.score)

/-- The `fullText` computation of the formatting loop (handlers.go lines
214-218): `fullText := text; if len(text) == 50 && len(text) <
len(fullText) { fullText = text + "..." }`.  At that point `fullText` is
`text` itself, so the condition compares `text`'s length with itself. -/
def fullTextOf (text : Str) : Str :=
  if text.length = 50 ∧ text.length < text.length then
    text ++ ['.', '.', '.']
  else text

/-! ## Admin cache clear (handlers.go `ClearCache` lines 632-659,
config `LoadConfig`) -/

/-- Result of the `ClearCache` handler. -/
inductive ClearCacheResult where
  | unauthorized
  | badRequest
  | serverError
  | ok (keysCleared : Nat)
  deriving Repr, DecidableEq

/-- `c.GetHeader` returns the empty string when the header is absent. -/
def getHeader (h : Option Str) : Str := h.getD []

/-- `ClearCache` (handlers.go lines 632-659): 401 unless the
`X-Admin-API-Key` header equals the configured admin key (`LoadConfig`
sets `AdminAPIKey` to `os.Getenv("ADMIN_API_KEY")`, which is the empty
string when the variable is unset); then 400 when the `userId` query is
empty; then `ClearRateLimits`, whose outcome is `clearResult`. -/
def clearCache (adminKey : Str) (header : Option Str) (userIdQuery : Str)
    (clearResult : Except Str Nat) : ClearCacheResult :=
  if getHeader header ≠ adminKey then .unauthorized
  else if userIdQuery = [] then .badRequest
  else
    match clearResult with
    | .error _ => .serverError
    | .ok n => .ok n

/-! ## Token verifier (internal/auth: `ClerkAuth`, `VerifyToken`,
`AuthMiddleware`) -/

/-- Distinct failure reasons of `VerifyToken` and the middleware. -/
inductive VerifyError where
  | unexpectedSigningMethod
  | kidHeaderNotFound
  | keyNotFound (kid : Str)
  | invalidSignature
  | invalidIssuer
  | tokenExpired
  deriving Repr, DecidableEq

/-- The claims of a token that matter to `VerifyToken` and
`AuthMiddleware` (`iss`, `exp`, `sub`; `exp` in Unix seconds). -/
structure TokenClaims where
  iss : Option Str
  exp : Option Int
  sub : Option Str
  deriving Repr, DecidableEq

/-- A parsed JWT as seen by the verifier: whether the signing method is
`*jwt.SigningMethodRSA`, the `kid` header, and the claims. -/
structure Token where
  algRSA : Bool
  kid : Option Str
  claims : TokenClaims
  deriving Repr, DecidableEq

/-- `ClerkAuth`: the in-memory key set (as the list of key ids it holds),
the configured issuer URL, and the time of the last JWKs load. -/
structure ClerkAuth where
  keys : List Str
  issuerURL : Str
  lastUpdate : Int
  deriving Repr, DecidableEq

/-- The verification-time environment: the clock, the signature-check
outcome under the key with a given kid, and the effect of `RefreshJWKs` on
the key set (the identity function when the fetch fails, since the code
continues with the existing keys). -/
structure VerifyEnv where
  now : Int
  sigVerifies : Str → Bool
  refreshKeys : List Str → List Str

/-- The staleness-triggered refresh at the top of `VerifyToken`
(`if time.Since(c.LastUpdate) > 30*time.Minute { c.RefreshJWKs() }`).
Returns the (possibly refreshed) state and how many refreshes ran. -/
def staleRefresh (c : ClerkAuth) (env : VerifyEnv) : ClerkAuth × Nat :=
  if env.now - c.lastUpdate > 30 * 60 then
    ({ c with keys := env.refreshKeys c.keys, lastUpdate := env.now }, 1)
  else (c, 0)

/-- The key set in memory when the key lookup runs. -/
def effectiveKeySet (c : ClerkAuth) (env : VerifyEnv) : List Str :=
  (staleRefresh c env).1.keys

/-- `jwt.Parse` with the keyfunc of `VerifyToken` (lines 203-225): reject
non-RSA signing methods, reject a missing `kid` header, fail with
`key with ID %s not found` when the kid is not in the key set — with no
refresh and no retry — and otherwise check the signature under the found
key.  (The library's own registered-claims validation is subsumed by the
explicit issuer/expiry checks that follow in `VerifyToken`.) -/
def parseToken (keys : List Str) (env : VerifyEnv) (tok : Token) :
    Except VerifyError TokenClaims :=
  if tok.algRSA then
    match tok.kid with
    | none => .error .kidHeaderNotFound
    | some kid =>
        if kid ∈ keys then
          if env.sigVerifies kid then .ok tok.claims
          else .error .invalidSignature
        else .error (.keyNotFound kid)
  else .error .unexpectedSigningMethod

/-- `VerifyToken` (lines 193-251): conditional stale refresh, parse, then
issuer check (`iss` present and equal to the configured issuer URL) and
expiry check (`exp` present and not in the past: fails iff
`time.Now().Unix() > int64(exp)`).  Returns the result together with the
number of key-set refreshes performed during this verification. -/
def verifyToken (c : ClerkAuth) (env : VerifyEnv) (tok : Token) :
    Except VerifyError TokenClaims × Nat :=
  let cr := staleRefresh c env
  let result :=
    match parseToken cr.1.keys env tok with
    | .error e => Except.error e
    | .ok claims =>
        match claims.iss with
        | none => Except.error .invalidIssuer
        | some issuer =>
            if issuer = c.issuerURL then
              match claims.exp with
              | none => Except.error .tokenExpired
              | some e =>
                  if env.now > e then Except.error .tokenExpired
                  else Except.ok claims
            else Except.error .invalidIssuer
  (result, cr.2)

/-- The `Authorization` header as the middleware case-splits on it:
absent, present without the `Bearer ` prefix, or a bearer token (token
parsing from the raw string is the JWT library's concern and is modelled
by the `Token` structure). -/
inductive AuthHeader where
  | missing
  | notBearer
  | bearer (tok : Token)

/-- Outcome of `AuthMiddleware` for one request. -/
inductive AuthResult where
  | unauthorized
  | authenticated (userId : Str)
  deriving Repr, DecidableEq

/-- `AuthMiddleware` (middleware.go lines 31-71): 401 on a missing or
non-Bearer header, 401 when `VerifyToken` fails, 401 when the verified
claims carry no string `sub`; otherwise the request proceeds with
`userId` set to the `sub` claim. -/
def authMiddleware (c : ClerkAuth) (env : VerifyEnv) (h : AuthHeader) :
    AuthResult :=
  match h with
  | .missing => .unauthorized
  | .notBearer => .unauthorized
  | .bearer tok =>
      match (verifyToken c env tok).1 with
      | .error _ => .unauthorized
      | .ok claims =>
          match claims.sub with
          | none => .unauthorized
          | some u => .authenticated u

/-! ## The worked ranking example of the specification -/

/-- 0.9 as an explicitly normalized rational (so that the worked example
evaluates by kernel reduction; `q09 = 9/10` is proved below). -/
def q09 : ℚ := ⟨9, 10, by decide, by decide⟩

/-- 0.95 as an explicitly normalized rational. -/
def q095 : ℚ := ⟨19, 20, by decide, by decide⟩

/-- 0.5 as an explicitly normalized rational. -/
def q05 : ℚ := ⟨1, 2, by decide, by decide⟩

/-- A 50-character text shared as the first 50 characters of the two
near-duplicate example matches. -/
def exBase : Str :=
  ("abcdefghijklmnopqrstuvwxyz0123456789ABCDEFGHIJKLMN" : String).toList

/-- First example match: long text, score 0.9. -/
def exMatch1 : RMatch := ⟨exBase ++ ("AAA" : String).toList, q09⟩

/-- Second example match: same first 50 characters, score 0.95. -/
def exMatch2 : RMatch := ⟨exBase ++ ("BBB" : String).toList, q095⟩

/-- Third example match: unrelated short text, score 0.5. -/
def exMatch3 : RMatch := ⟨("xyz" : String).toList, q05⟩

end ForgetAI

/-! ## Helper lemmas -/

namespace ForgetAI

theorem counterAfterChecks_eq (k : Nat) : counterAfterChecks k = k := by
  induction k with
  | zero => rfl
  | succ n ih =>
      simp [counterAfterChecks, checkRateLimit] at ih ⊢
      omega

/-- The source's conditional trim is unconditional truncation to the last
10 entries. -/
theorem trim_eq_lastN (xs : List ChatMessage) :
    (if xs.length > 10 then xs.drop (xs.length - 10) else xs) =
      lastN 10 xs := by
  by_cases h : xs.length > 10
  · simp [h, lastN, List.rtake]
  · simp [h, lastN, List.rtake, Nat.sub_eq_zero_of_le (Nat.le_of_not_lt h)]

theorem lastN_length_le (n : Nat) (xs : List ChatMessage) :
    (lastN n xs).length ≤ n := by
  simp [lastN, List.rtake]
  omega

theorem lastN_of_len_le (n : Nat) (xs : List ChatMessage)
    (h : xs.length ≤ n) : lastN n xs = xs := by
  simp [lastN, List.rtake, Nat.sub_eq_zero_of_le h]

theorem rtake_rtake_le (l : List ChatMessage) (m n : Nat) (h : m ≤ n) :
    (l.rtake n).rtake m = l.rtake m := by
  simp [List.rtake_eq_reverse_take_reverse, List.take_take,
    Nat.min_eq_left h]

theorem lastN_append_single (xs : List ChatMessage) (m : ChatMessage) :
    lastN 10 (lastN 10 xs ++ [m]) = lastN 10 (xs ++ [m]) := by
  show ((xs.rtake 10) ++ [m]).rtake 10 = (xs ++ [m]).rtake 10
  rw [show (10 : Nat) = 9 + 1 from rfl, List.rtake_concat_succ,
    List.rtake_concat_succ, rtake_rtake_le]
  omega

theorem lastN_append (ys : List ChatMessage) :
    ∀ xs, lastN 10 (lastN 10 xs ++ ys) = lastN 10 (xs ++ ys) := by
  induction ys with
  | nil =>
      intro xs
      simp only [List.append_nil]
      exact rtake_rtake_le xs 10 10 (le_refl 10)
  | cons y t ih =>
      intro xs
      calc lastN 10 (lastN 10 xs ++ y :: t)
          = lastN 10 ((lastN 10 xs ++ [y]) ++ t) := by simp
        _ = lastN 10 (lastN 10 (lastN 10 xs ++ [y]) ++ t) := (ih _).symm
        _ = lastN 10 (lastN 10 (xs ++ [y]) ++ t) := by
              rw [lastN_append_single]
        _ = lastN 10 ((xs ++ [y]) ++ t) := ih _
        _ = lastN 10 (xs ++ y :: t) := by simp

/-- Appending to an existing session rewrites it to the last 10 entries of
its extended history and refreshes the update timestamp. -/
theorem addMessageToSession_existing (store : SessionStore) (sid : Str)
    (s : ChatSession) (hs : store sid = some s) (role content : Str)
    (now : Int) :
    addMessageToSession store sid role content now sid =
      some ⟨lastN 10 (s.messages ++ [⟨role, content⟩]), s.createdAt, now⟩ := by
  simp only [addMessageToSession, hs, trim_eq_lastN]
  simp

theorem addMessages_spec (sid : Str) (ops : List (Str × Str × Int)) :
    ∀ (store : SessionStore) (s : ChatSession), store sid = some s →
      s.messages.length ≤ 10 →
      ∃ t, addMessages store sid ops sid = some t ∧
        t.messages = lastN 10 (s.messages ++ msgsOf ops) := by
  induction ops with
  | nil =>
      intro store s hs hlen
      refine ⟨s, hs, ?_⟩
      simp [msgsOf, lastN_of_len_le 10 s.messages hlen]
  | cons op rest ih =>
      intro store s hs hlen
      obtain ⟨role, content, now⟩ := op
      have hstep := addMessageToSession_existing store sid s hs
        role content now
      have hlen' :
          (lastN 10 (s.messages ++ [⟨role, content⟩])).length ≤ 10 :=
        lastN_length_le 10 _
      have ih1 := ih (addMessageToSession store sid role content now)
      have ih2 := ih1
        ⟨lastN 10 (s.messages ++ [⟨role, content⟩]), s.createdAt, now⟩
      have ih3 := ih2 hstep
      obtain ⟨t, ht, hmsg⟩ := ih3 hlen'
      refine ⟨t, ?_, ?_⟩
      · simpa [addMessages] using ht
      · rw [hmsg]
        simp only [msgsOf, List.map_cons]
        rw [lastN_append]
        simp

theorem alookup_append (k : Str) (l₁ l₂ : List (Str × ℚ)) :
    alookup k (l₁ ++ l₂) =
      match alookup k l₁ with
      | some v => some v
      | none => alookup k l₂ := by
  induction l₁ with
  | nil => simp [alookup]
  | cons p rest ih =>
      by_cases h : p.1 = k
      · simp [alookup, h]
      · simp [alookup, h, ih]

theorem alookup_map_update (k key : Str) (v : ℚ) (l : List (Str × ℚ)) :
    alookup k (l.map (fun p => if p.1 = key then (key, v) else p)) =
      if k = key then (alookup k l).map (fun _ => v) else alookup k l := by
  induction l with
  | nil => simp [alookup]
  | cons p rest ih =>
      by_cases hp : p.1 = key
      · by_cases hk : k = key
        · subst hk
          simp [alookup, hp, ih]
        · have hpk : ¬ p.1 = k := by
            intro hc
            exact hk (hc ▸ hp ▸ rfl)
          have hkk : ¬ key = k := fun hc => hk hc.symm
          simp [alookup, hp, hpk, ih, hk, hkk]
      · by_cases hpk : p.1 = k
        · have hk : ¬ k = key := by
            intro hc
            exact hp (hpk.trans hc)
          simp [alookup, hp, hpk, hk]
        · simp [alookup, hp, hpk, ih]

theorem insertMatch_alookup (acc : List (Str × ℚ)) (m : RMatch) (k : Str) :
    alookup k (insertMatch acc m) = bestStep k (alookup k acc) m := by
  simp only [insertMatch, bestStep]
  cases hfound : alookup (dedupKey m.text) acc with
  | none =>
      rw [alookup_append]
      by_cases hk : dedupKey m.text = k
      · subst hk
        rw [hfound]
        simp [alookup]
      · simp only [if_neg hk]
        cases h2 : alookup k acc with
        | none => simp [alookup, h2, hk]
        | some s => simp [h2]
  | some s =>
      dsimp only
      by_cases hgt : m.score > s
      · rw [if_pos hgt, alookup_map_update]
        by_cases hk : dedupKey m.text = k
        · subst hk
          rw [if_pos rfl, if_pos rfl, hfound]
          simp [hgt]
        · rw [if_neg (fun hc => hk hc.symm), if_neg hk]
      · rw [if_neg hgt]
        by_cases hk : dedupKey m.text = k
        · subst hk
          rw [if_pos rfl, hfound]
          simp [hgt]
        · rw [if_neg hk]

theorem dedupPass_alookup_aux (k : Str) :
    ∀ (ms : List RMatch) (acc : List (Str × ℚ)),
      alookup k (List.foldl insertMatch acc ms) =
        bestScoreAux k (alookup k acc) ms := by
  intro ms
  induction ms with
  | nil =>
      intro acc
      simp [bestScoreAux]
  | cons m rest ih =>
      intro acc
      simp only [List.foldl_cons, bestScoreAux] at ih ⊢
      rw [ih (insertMatch acc m), insertMatch_alookup]

theorem bestStep_isSome (k : Str) (a : Option ℚ) (m : RMatch)
    (ha : a.isSome = true) : (bestStep k a m).isSome = true := by
  cases a with
  | none => simp at ha
  | some s =>
      unfold bestStep
      by_cases hk : dedupKey m.text = k <;> simp [hk]

theorem bestScoreAux_isSome (k : Str) :
    ∀ (ms : List RMatch) (a : Option ℚ),
      (a.isSome = true ∨ ∃ m ∈ ms, dedupKey m.text = k) →
      (bestScoreAux k a ms).isSome = true := by
  intro ms
  induction ms with
  | nil =>
      intro a h
      rcases h with ha | ⟨m, hm, _⟩
      · simpa [bestScoreAux] using ha
      · simp at hm
  | cons m rest ih =>
      intro a h
      show (bestScoreAux k (bestStep k a m) rest).isSome = true
      apply ih
      rcases h with ha | ⟨m', hm', hk'⟩
      · exact Or.inl (bestStep_isSome k a m ha)
      · rcases List.mem_cons.mp hm' with hm'' | hm''
        · subst hm''
          left
          cases a with
          | none => simp [bestStep, hk']
          | some s => simp [bestStep, hk']
        · exact Or.inr ⟨m', hm'', hk'⟩

theorem bestScoreAux_max (k : Str) :
    ∀ (ms : List RMatch) (a : Option ℚ) (q : ℚ),
      bestScoreAux k a ms = some q →
        (q ∈ scoresFor k ms ∨ a = some q) ∧
        (∀ s, s ∈ scoresFor k ms → s ≤ q) ∧
        (∀ s, a = some s → s ≤ q) := by
  intro ms
  induction ms with
  | nil =>
      intro a q h
      simp [bestScoreAux] at h
      subst h
      refine ⟨Or.inr rfl, ?_, ?_⟩
      · intro s hs
        simp [scoresFor] at hs
      · intro s hs
        cases hs
        exact le_refl q
  | cons m rest ih =>
      intro a q h
      have h' : bestScoreAux k (bestStep k a m) rest = some q := h
      obtain ⟨hmem, hub, hacc⟩ := ih (bestStep k a m) q h'
      by_cases hk : dedupKey m.text = k
      · have hsf : scoresFor k (m :: rest) = m.score :: scoresFor k rest := by
          simp [scoresFor, hk]
        cases a with
        | none =>
            have hb : bestStep k none m = some m.score := by
              simp [bestStep, hk]
            rw [hb] at hmem hacc
            refine ⟨?_, ?_, ?_⟩
            · left
              simp only [hsf]
              rcases hmem with hq | hq
              · exact List.mem_cons_of_mem _ hq
              · rw [Option.some_inj] at hq
                rw [← hq]
                exact List.mem_cons_self _ _
            · intro s hs
              simp only [hsf, List.mem_cons] at hs
              rcases hs with rfl | hs
              · exact hacc _ rfl
              · exact hub s hs
            · intro s hs
              simp at hs
        | some s0 =>
            have hb : bestStep k (some s0) m =
                some (if m.score > s0 then m.score else s0) := by
              simp [bestStep, hk]
            rw [hb] at hmem hacc
            have hMq : (if m.score > s0 then m.score else s0) ≤ q :=
              hacc _ rfl
            have hs0M : s0 ≤ (if m.score > s0 then m.score else s0) := by
              by_cases hgt : m.score > s0
              · simp only [if_pos hgt]
                linarith
              · simp [hgt]
            have hmM : m.score ≤ (if m.score > s0 then m.score else s0) := by
              by_cases hgt : m.score > s0
              · simp [hgt]
              · simp only [if_neg hgt]
                linarith
            refine ⟨?_, ?_, ?_⟩
            · rcases hmem with hq | hq
              · left
                simp only [hsf]
                exact List.mem_cons_of_mem _ hq
              · rw [Option.some_inj] at hq
                by_cases hgt : m.score > s0
                · left
                  simp only [hsf]
                  rw [if_pos hgt] at hq
                  rw [← hq]
                  exact List.mem_cons_self _ _
                · right
                  rw [if_neg hgt] at hq
                  rw [hq]
            · intro s hs
              simp only [hsf, List.mem_cons] at hs
              rcases hs with rfl | hs
              · exact le_trans hmM hMq
              · exact hub s hs
            · intro s hs
              rw [Option.some_inj] at hs
              rw [← hs]
              exact le_trans hs0M hMq
      · have hsf : scoresFor k (m :: rest) = scoresFor k rest := by
          simp [scoresFor, hk]
        have hb : bestStep k a m = a := by
          simp [bestStep, hk]
        rw [hb] at hmem hacc
        refine ⟨?_, ?_, hacc⟩
        · simp only [hsf]
          exact hmem
        · simp only [hsf]
          exact hub

theorem lastN_isSuffix (n : Nat) (xs : List ChatMessage) :
    List.IsSuffix (lastN n xs) xs := by
  simp only [lastN, List.rtake]
  exact List.drop_suffix _ _

theorem clearCache_auth_pass (adminKey : Str) (header : Option Str)
    (uq : Str) (r : Except Str Nat)
    (h : getHeader header = adminKey) :
    clearCache adminKey header uq r ≠ ClearCacheResult.unauthorized := by
  unfold clearCache
  rw [if_neg (by simp [h])]
  by_cases hu : uq = []
  · rw [if_pos hu]
    intro hc
    exact ClearCacheResult.noConfusion hc
  · rw [if_neg hu]
    cases r with
    | error e =>
        intro hc
        exact ClearCacheResult.noConfusion hc
    | ok n =>
        intro hc
        exact ClearCacheResult.noConfusion hc

end ForgetAI

/-! ## Claim theorems -/

/-- C3: for the threshold `T = 30` configured in `CheckRateLimit`, the first
`T` admission checks on a fresh (identity, endpoint-category, day) key are
all admitted, and check number `T+1` is rejected with reported current count
`T+1` (the limit field of the 429 body is the literal `10`). -/
theorem C3_first_T_admitted_then_reject
    (i : Nat) (hi : i < ForgetAI.rateLimitThreshold) :
    (ForgetAI.rateLimitStep (ForgetAI.counterAfterChecks i)).1 =
      ForgetAI.RLOutcome.proceed ∧
    (ForgetAI.rateLimitStep
        (ForgetAI.counterAfterChecks ForgetAI.rateLimitThreshold)).1 =
      ForgetAI.RLOutcome.reject (ForgetAI.rateLimitThreshold + 1) 10 := by
  rw [ForgetAI.counterAfterChecks_eq, ForgetAI.counterAfterChecks_eq]
  constructor
  · simp [ForgetAI.rateLimitStep, ForgetAI.checkRateLimit,
      ForgetAI.rateLimitMiddleware, ForgetAI.rateLimitThreshold] at hi ⊢
    omega
  · simp [ForgetAI.rateLimitStep, ForgetAI.checkRateLimit,
      ForgetAI.rateLimitMiddleware, ForgetAI.getRateLimitCount,
      ForgetAI.rateLimitThreshold]

/-- Witness for C3 at `i = 0`: the very first check is admitted and check 31
is rejected reporting count 31. -/
theorem C3_first_T_admitted_then_reject_witness :
    (0 < ForgetAI.rateLimitThreshold) ∧
    ((ForgetAI.rateLimitStep (ForgetAI.counterAfterChecks 0)).1 =
      ForgetAI.RLOutcome.proceed ∧
    (ForgetAI.rateLimitStep
        (ForgetAI.counterAfterChecks ForgetAI.rateLimitThreshold)).1 =
      ForgetAI.RLOutcome.reject (ForgetAI.rateLimitThreshold + 1) 10) :=
  ⟨by decide, C3_first_T_admitted_then_reject 0 (by decide)⟩

/-- C8 counterexample: the claim says that after a rejected check the counter
is not incremented further.  Concretely: with threshold 30, check number 31
(counter 30) is rejected and leaves the counter at 31, but the next check on
the same key increments it again, to 32 — not the claimed 31. -/
theorem C8_counterexample :
    (ForgetAI.checkRateLimit 30).1 = true ∧
    (ForgetAI.checkRateLimit 30).2 = 31 ∧
    (ForgetAI.checkRateLimit 31).2 = 32 ∧
    (ForgetAI.checkRateLimit 31).2 ≠ 31 := by decide

/-- C8 amended: every admission check increments the counter, including
every check performed after a rejection; after `k` checks the counter is
exactly `k`, so each over-threshold check is itself counted. -/
theorem C8_amended_every_check_increments (n k : Nat) :
    (ForgetAI.checkRateLimit n).2 = n + 1 ∧
    ForgetAI.counterAfterChecks k = k :=
  ⟨rfl, ForgetAI.counterAfterChecks_eq k⟩

/-- C4: if the counter backend returns an error from the admission check,
`RateLimitMiddleware` proceeds to the handler and the error is not surfaced
to the caller (the outcome carries no error data). -/
theorem C4_fail_open (e : ForgetAI.Str) (countAfter : Nat) :
    ForgetAI.rateLimitMiddleware (.error e) countAfter =
      ForgetAI.RLOutcome.proceed := rfl

/-- C5: for an existing session (all sessions are created with an empty
history, so an existing session holds at most 10 messages), any sequence of
appends leaves the history equal to the last 10 entries of the full
extended history: it has at most 10 entries, it is a suffix of the full
history (the oldest entries are evicted first and order is preserved). -/
theorem C5_history_bounded_fifo
    (store : ForgetAI.SessionStore) (sid : ForgetAI.Str)
    (s : ForgetAI.ChatSession) (hs : store sid = some s)
    (hlen : s.messages.length ≤ 10)
    (ops : List (ForgetAI.Str × ForgetAI.Str × Int)) :
    ∃ t, ForgetAI.addMessages store sid ops sid = some t ∧
      t.messages = ForgetAI.lastN 10 (s.messages ++ ForgetAI.msgsOf ops) ∧
      t.messages.length ≤ 10 ∧
      List.IsSuffix t.messages (s.messages ++ ForgetAI.msgsOf ops) := by
  obtain ⟨t, ht, hmsg⟩ := ForgetAI.addMessages_spec sid ops store s hs hlen
  refine ⟨t, ht, hmsg, ?_, ?_⟩
  · rw [hmsg]
    exact ForgetAI.lastN_length_le 10 _
  · rw [hmsg]
    exact ForgetAI.lastN_isSuffix 10 _

/-- Witness for C5: a store holding one empty session under `u-1`, with
twelve appended messages; the resulting history is the last 10 of them. -/
theorem C5_history_bounded_fifo_witness :
    ∃ t, ForgetAI.addMessages
        (fun k => if k = ("u-1" : String).toList then
          some ⟨[], 0, 0⟩ else none)
        (("u-1" : String).toList)
        (List.range 12 |>.map
          (fun i => (("user" : String).toList, ("m" : String).toList,
            (i : Int))))
        (("u-1" : String).toList) = some t ∧
      t.messages = ForgetAI.lastN 10
        ((⟨[], 0, 0⟩ : ForgetAI.ChatSession).messages ++
          ForgetAI.msgsOf (List.range 12 |>.map
            (fun i => (("user" : String).toList, ("m" : String).toList,
              (i : Int))))) ∧
      t.messages.length ≤ 10 ∧
      List.IsSuffix t.messages
        ((⟨[], 0, 0⟩ : ForgetAI.ChatSession).messages ++
          ForgetAI.msgsOf (List.range 12 |>.map
            (fun i => (("user" : String).toList, ("m" : String).toList,
              (i : Int))))) :=
  C5_history_bounded_fifo
    (fun k => if k = ("u-1" : String).toList then some ⟨[], 0, 0⟩ else none)
    (("u-1" : String).toList) ⟨[], 0, 0⟩ (by simp) (by simp) _

/-- C6: in the deduplication pass, the retained score under each key is
exactly the running maximum of the scores of the processed matches sharing
that key (first conjunct); whenever a key survives with score `q`, `q` is a
score of one of its matches and an upper bound of all of them (second), and
every processed match's key survives (third).  On the worked example —
two matches sharing their first 50 characters with scores 0.9 and 0.95 plus
an unrelated "xyz" match with score 0.5 — the pass retains exactly the
0.95 entry under the shared key and the 0.5 "xyz" entry, dropping the 0.9
duplicate (fourth). -/
theorem C6_dedup_retains_highest :
    (∀ (ms : List ForgetAI.RMatch) (k : ForgetAI.Str),
        ForgetAI.alookup k (ForgetAI.dedupPass ms) =
          ForgetAI.bestScore k ms) ∧
    (∀ (ms : List ForgetAI.RMatch) (k : ForgetAI.Str) (q : ℚ),
        ForgetAI.alookup k (ForgetAI.dedupPass ms) = some q →
          q ∈ ForgetAI.scoresFor k ms ∧
          ∀ s ∈ ForgetAI.scoresFor k ms, s ≤ q) ∧
    (∀ (ms : List ForgetAI.RMatch) (m : ForgetAI.RMatch), m ∈ ms →
        (ForgetAI.alookup (ForgetAI.dedupKey m.text)
          (ForgetAI.dedupPass ms)).isSome = true) ∧
    (ForgetAI.exMatch1.score = 9/10 ∧ ForgetAI.exMatch2.score = 95/100 ∧
      ForgetAI.exMatch3.score = 5/10 ∧
      ForgetAI.dedupKey ForgetAI.exMatch1.text =
        ForgetAI.dedupKey ForgetAI.exMatch2.text ∧
      ForgetAI.exMatch1.text ≠ ForgetAI.exMatch2.text ∧
      ForgetAI.dedupPass
          [ForgetAI.exMatch1, ForgetAI.exMatch2, ForgetAI.exMatch3] =
        [(ForgetAI.dedupKey ForgetAI.exMatch1.text, ForgetAI.q095),
         (ForgetAI.exMatch3.text, ForgetAI.q05)]) := by
  have hgen : ∀ (ms : List ForgetAI.RMatch) (k : ForgetAI.Str),
      ForgetAI.alookup k (ForgetAI.dedupPass ms) =
        ForgetAI.bestScore k ms := by
    intro ms k
    have h := ForgetAI.dedupPass_alookup_aux k ms []
    simpa [ForgetAI.dedupPass, ForgetAI.bestScore, ForgetAI.alookup] using h
  refine ⟨hgen, ?_, ?_, ?_⟩
  · intro ms k q hq
    rw [hgen] at hq
    obtain ⟨hmem, hub, _⟩ := ForgetAI.bestScoreAux_max k ms none q hq
    refine ⟨?_, hub⟩
    rcases hmem with h | h
    · exact h
    · exact absurd h (by simp)
  · intro ms m hm
    rw [hgen]
    exact ForgetAI.bestScoreAux_isSome (ForgetAI.dedupKey m.text) ms none
      (Or.inr ⟨m, hm, rfl⟩)
  · refine ⟨?_, ?_, ?_, by decide, by decide, by rfl⟩
    · rw [show ForgetAI.exMatch1.score = ForgetAI.q09 from rfl,
        ForgetAI.q09, Rat.mk'_eq_divInt, Rat.divInt_eq_div]
      norm_num
    · rw [show ForgetAI.exMatch2.score = ForgetAI.q095 from rfl,
        ForgetAI.q095, Rat.mk'_eq_divInt, Rat.divInt_eq_div]
      norm_num
    · rw [show ForgetAI.exMatch3.score = ForgetAI.q05 from rfl,
        ForgetAI.q05, Rat.mk'_eq_divInt, Rat.divInt_eq_div]
      norm_num

/-- Witness for C6: on the worked example, the retained score 0.95 under
the shared key is indeed one of that key's match scores. -/
theorem C6_dedup_retains_highest_witness :
    ForgetAI.q095 ∈ ForgetAI.scoresFor
      (ForgetAI.dedupKey ForgetAI.exMatch1.text)
      [ForgetAI.exMatch1, ForgetAI.exMatch2, ForgetAI.exMatch3] :=
  (C6_dedup_retains_highest.2.1
    [ForgetAI.exMatch1, ForgetAI.exMatch2, ForgetAI.exMatch3]
    (ForgetAI.dedupKey ForgetAI.exMatch1.text) ForgetAI.q095 (by rfl)).1

/-- C7: the session-retrieval handler returns a session only when the
identifier starts with the caller's identity followed by `-` and the
session exists; whenever the prefix check fails the caller gets a
forbidden error, regardless of the store's contents. -/
theorem C7_session_ownership
    (store : ForgetAI.SessionStore) (uid sid : ForgetAI.Str) :
    (∀ s, ForgetAI.getSessionHandler store uid sid =
        ForgetAI.GetSessionResult.ok s →
      (uid ++ ['-']).isPrefixOf sid = true ∧ store sid = some s) ∧
    ((uid ++ ['-']).isPrefixOf sid = false →
      ForgetAI.getSessionHandler store uid sid =
        ForgetAI.GetSessionResult.forbidden) := by
  constructor
  · intro s h
    unfold ForgetAI.getSessionHandler at h
    by_cases hp : (uid ++ ['-']).isPrefixOf sid = true
    · rw [if_pos hp] at h
      refine ⟨hp, ?_⟩
      cases hst : store sid with
      | none =>
          rw [hst] at h
          exact absurd h (by simp)
      | some s2 =>
          rw [hst] at h
          dsimp only at h
          cases h
          rfl
    · rw [if_neg hp] at h
      exact absurd h (by simp)
  · intro hp
    unfold ForgetAI.getSessionHandler
    rw [if_neg (by simp [hp])]

/-- Witness for C7: a caller `alice` asking for `bob-1` is rejected with a
forbidden error. -/
theorem C7_session_ownership_witness :
    ForgetAI.getSessionHandler (fun _ => none)
      (("alice" : String).toList) (("bob-1" : String).toList) =
      ForgetAI.GetSessionResult.forbidden :=
  (C7_session_ownership (fun _ => none) (("alice" : String).toList)
    (("bob-1" : String).toList)).2 (by decide)

/-- C9: the text emitted for each result line is the dedup key itself:
`fullTextOf` is the identity function because its condition compares a
string's length against itself, so the ellipsis branch is unreachable; the
key is at most 50 characters long and, for texts longer than 50
characters, equals exactly the first 50. -/
theorem C9_result_text_truncated (t : ForgetAI.Str) :
    ForgetAI.fullTextOf (ForgetAI.dedupKey t) = ForgetAI.dedupKey t ∧
    (ForgetAI.dedupKey t).length ≤ 50 ∧
    (t.length > 50 → ForgetAI.dedupKey t = t.take 50) ∧
    (∀ s : ForgetAI.Str, ForgetAI.fullTextOf s = s) := by
  refine ⟨?_, ?_, ?_, ?_⟩
  · simp [ForgetAI.fullTextOf]
  · unfold ForgetAI.dedupKey
    by_cases h : t.length > 50
    · rw [if_pos h]
      simp
    · rw [if_neg h]
      omega
  · intro h
    simp [ForgetAI.dedupKey, h]
  · intro s
    simp [ForgetAI.fullTextOf]

/-- Witness for C9: a 53-character text is cut to its first 50 characters
and emitted unchanged by the formatting step. -/
theorem C9_result_text_truncated_witness :
    ForgetAI.dedupKey ForgetAI.exMatch1.text =
      ForgetAI.exMatch1.text.take 50 :=
  (C9_result_text_truncated ForgetAI.exMatch1.text).2.2.1 (by decide)

/-- C10: the cache-clear endpoint answers 401 exactly when the
`X-Admin-API-Key` header value (empty when absent) differs from the
configured admin key; with an unset `ADMIN_API_KEY` (empty admin key),
any request without the header passes the authorization check. -/
theorem C10_admin_key_check
    (adminKey : ForgetAI.Str) (header : Option ForgetAI.Str)
    (uq : ForgetAI.Str) (r : Except ForgetAI.Str Nat) :
    (ForgetAI.clearCache adminKey header uq r =
        ForgetAI.ClearCacheResult.unauthorized ↔
      ForgetAI.getHeader header ≠ adminKey) ∧
    (∀ (uq2 : ForgetAI.Str) (r2 : Except ForgetAI.Str Nat),
      ForgetAI.clearCache [] none uq2 r2 ≠
        ForgetAI.ClearCacheResult.unauthorized) := by
  constructor
  · constructor
    · intro he hne
      exact ForgetAI.clearCache_auth_pass adminKey header uq r hne he
    · intro h
      unfold ForgetAI.clearCache
      rw [if_pos h]
  · intro uq2 r2
    exact ForgetAI.clearCache_auth_pass [] none uq2 r2 rfl

/-- Witness for C10: a wrong header against the key `secret` is rejected
with 401. -/
theorem C10_admin_key_check_witness :
    ForgetAI.clearCache (("secret" : String).toList)
      (some (("wrong" : String).toList)) (("u" : String).toList)
      (Except.ok 0) = ForgetAI.ClearCacheResult.unauthorized :=
  (C10_admin_key_check (("secret" : String).toList)
    (some (("wrong" : String).toList)) (("u" : String).toList)
    (Except.ok 0)).1.mpr (by decide)

/-- C1: a token whose RSA signature verifies under the key named by its
`kid` header — that key being present in the key set in memory at lookup
time — whose `iss` claim equals the configured issuer URL and whose `exp`
claim lies in the future at verification time is accepted by `VerifyToken`,
and `AuthMiddleware` authenticates the request as the token's `sub`
claim. -/
theorem C1_verify_token_success
    (c : ForgetAI.ClerkAuth) (env : ForgetAI.VerifyEnv)
    (tok : ForgetAI.Token) (k u : ForgetAI.Str) (e : Int)
    (halg : tok.algRSA = true)
    (hkid : tok.kid = some k)
    (hkey : k ∈ ForgetAI.effectiveKeySet c env)
    (hsig : env.sigVerifies k = true)
    (hiss : tok.claims.iss = some c.issuerURL)
    (hexp : tok.claims.exp = some e)
    (hfut : env.now < e)
    (hsub : tok.claims.sub = some u) :
    (ForgetAI.verifyToken c env tok).1 = Except.ok tok.claims ∧
    ForgetAI.authMiddleware c env (ForgetAI.AuthHeader.bearer tok) =
      ForgetAI.AuthResult.authenticated u := by
  have hparse : ForgetAI.parseToken (ForgetAI.effectiveKeySet c env) env tok =
      Except.ok tok.claims := by
    simp [ForgetAI.parseToken, halg, hkid, hkey, hsig]
  have hnotgt : ¬ env.now > e := by omega
  have h1 : (ForgetAI.verifyToken c env tok).1 = Except.ok tok.claims := by
    simp only [ForgetAI.effectiveKeySet] at hparse
    simp [ForgetAI.verifyToken, hparse, hiss, hexp, hnotgt]
  refine ⟨h1, ?_⟩
  simp [ForgetAI.authMiddleware, h1, hsub]

/-- Witness for C1: a token signed under `k1` (present in the key set),
with matching issuer and future expiry, verifies and authenticates as
`user_1`. -/
theorem C1_verify_token_success_witness :
    (ForgetAI.verifyToken
        ⟨[("k1" : String).toList], ("https://iss" : String).toList, 0⟩
        ⟨100, fun _ => true, fun ks => ks⟩
        ⟨true, some (("k1" : String).toList),
          ⟨some (("https://iss" : String).toList), some 1000,
            some (("user_1" : String).toList)⟩⟩).1 =
      Except.ok ⟨some (("https://iss" : String).toList), some 1000,
        some (("user_1" : String).toList)⟩ ∧
    ForgetAI.authMiddleware
        ⟨[("k1" : String).toList], ("https://iss" : String).toList, 0⟩
        ⟨100, fun _ => true, fun ks => ks⟩
        (ForgetAI.AuthHeader.bearer
          ⟨true, some (("k1" : String).toList),
            ⟨some (("https://iss" : String).toList), some 1000,
              some (("user_1" : String).toList)⟩⟩) =
      ForgetAI.AuthResult.authenticated (("user_1" : String).toList) :=
  C1_verify_token_success _ _ _ (("k1" : String).toList)
    (("user_1" : String).toList) 1000 rfl rfl (by decide) rfl rfl rfl
    (by decide) rfl

/-- C2 counterexample: with a fresh key set (no staleness refresh due) and
a token whose kid `k2` is not in the set, `VerifyToken` fails immediately
with the unknown-key error having performed zero key-set refreshes — not
the one synchronous refresh-and-retry the claim requires — even though the
refresh would have provided `k2`. -/
theorem C2_counterexample :
    ForgetAI.verifyToken
        ⟨[("k1" : String).toList], ("https://iss" : String).toList, 0⟩
        ⟨100, fun _ => true, fun ks => ks ++ [("k2" : String).toList]⟩
        ⟨true, some (("k2" : String).toList),
          ⟨some (("https://iss" : String).toList), some 1000,
            some (("u" : String).toList)⟩⟩ =
      (Except.error (ForgetAI.VerifyError.keyNotFound
        (("k2" : String).toList)), 0) ∧
    (0 : Nat) ≠ 1 :=
  ⟨rfl, by decide⟩

/-- C2 amended: when the token's kid does not resolve in the key set in
memory (after the staleness-triggered refresh step that precedes parsing),
`VerifyToken` fails with the unknown-key error for that kid and performs no
lookup-triggered refresh or retry: the number of refreshes is 1 exactly
when the key set was older than 30 minutes — independent of the lookup
failure — and 0 otherwise. -/
theorem C2_amended_no_refresh_retry_on_unknown_kid
    (c : ForgetAI.ClerkAuth) (env : ForgetAI.VerifyEnv)
    (tok : ForgetAI.Token) (k : ForgetAI.Str)
    (halg : tok.algRSA = true)
    (hkid : tok.kid = some k)
    (hkey : k ∉ ForgetAI.effectiveKeySet c env) :
    (ForgetAI.verifyToken c env tok).1 =
      Except.error (ForgetAI.VerifyError.keyNotFound k) ∧
    (ForgetAI.verifyToken c env tok).2 =
      (if env.now - c.lastUpdate > 30 * 60 then 1 else 0) := by
  have hparse : ForgetAI.parseToken (ForgetAI.effectiveKeySet c env) env tok =
      Except.error (ForgetAI.VerifyError.keyNotFound k) := by
    simp [ForgetAI.parseToken, halg, hkid, hkey]
  constructor
  · simp only [ForgetAI.effectiveKeySet] at hparse
    simp [ForgetAI.verifyToken, hparse]
  · show (ForgetAI.staleRefresh c env).2 = _
    unfold ForgetAI.staleRefresh
    split
    · rfl
    · rfl

/-- Witness for C2 (amended): fresh key set, unknown kid `k2`: unknown-key
error and zero refreshes. -/
theorem C2_amended_no_refresh_retry_on_unknown_kid_witness :
    (ForgetAI.verifyToken
        ⟨[("k1" : String).toList], ("https://iss" : String).toList, 0⟩
        ⟨100, fun _ => true, fun ks => ks ++ [("k2" : String).toList]⟩
        ⟨true, some (("k2" : String).toList),
          ⟨some (("https://iss" : String).toList), some 1000,
            some (("u" : String).toList)⟩⟩).1 =
      Except.error (ForgetAI.VerifyError.keyNotFound
        (("k2" : String).toList)) ∧
    (ForgetAI.verifyToken
        ⟨[("k1" : String).toList], ("https://iss" : String).toList, 0⟩
        ⟨100, fun _ => true, fun ks => ks ++ [("k2" : String).toList]⟩
        ⟨true, some (("k2" : String).toList),
          ⟨some (("https://iss" : String).toList), some 1000,
            some (("u" : String).toList)⟩⟩).2 =
      (if (100 : Int) - 0 > 30 * 60 then 1 else 0) :=
  C2_amended_no_refresh_retry_on_unknown_kid _ _ _
    (("k2" : String).toList) rfl rfl (by decide)
